import Mathlib

/-!
# Verification of the aria2p HTOP-like terminal interface

Shallow embedding of `src/aria2p/interface.py` (the interactive interface
module): the horizontal scroll writer, the key registry, the view state
machine with its keyboard and mouse handlers, the column bounds
computation, the sorting routine and the frame loop skeleton.

Conventions:
* Python `int` is modelled as `Int` (`ℤ`); list indices coming from the
  UI state are `Int` because the code can produce negative indices.
* Python exceptions are modelled with `Except Fault`: `Fault.exitSig`
  models the dedicated `Exit` exception raised by the Quit action and
  `Fault.pyErr` models any other exception (`ValueError`, `IndexError`).
  In every raising code path of the embedded handlers the source raises
  before mutating any state, so "caught exception leaves the state
  unchanged" is a faithful model.
* Screen output (the actual `Screen.print_at` / `Screen.paint` calls and
  the logging calls) is a pure side effect that no claim depends on; the
  embedding keeps the values the source computes (characters written,
  scroll counters, bounds) and drops the writes themselves.
-/

/-- Python slice length for `text[s:]` on a text of length `len`:
for `0 ≤ s` the suffix has `max 0 (len - s)` characters, for `s < 0`
Python counts from the end and the suffix has `min len (-s)` characters. -/
def pySuffixLen (len : Nat) (s : Int) : Nat :=
  if 0 ≤ s then len - s.toNat else min len (-s).toNat

/-- `HorizontalScroll.print_at` (interface.py lines 134-172), abstracted to
the quantities the source computes: the internal scroll counter and the
number of characters actually written.  Input: current scroll counter and
the length of `text`; output: new scroll counter and the returned count.
The palette handling only changes what is painted, never the counts. -/
def print_at (scroll : Int) (textLen : Nat) : Int × Nat :=
  if scroll = 0 then
    (scroll, textLen)
  else if (textLen : Int) > scroll then
    (0, pySuffixLen textLen scroll)
  else if (textLen : Int) = scroll then
    (0, 0)
  else
    (scroll - textLen, 0)

/-- The internal scroll counter after a sequence of `print_at` calls whose
text lengths are `ns`, starting from the counter set by `set_scroll`. -/
def scrollAfter : Int → List Nat → Int
  | s, [] => s
  | s, n :: ns => scrollAfter (print_at s n).1 ns

/-- The sum of the values returned by a sequence of `print_at` calls whose
text lengths are `ns`, starting from the counter set by `set_scroll`. -/
def writtenTotal : Int → List Nat → Nat
  | _, [] => 0
  | s, n :: ns => (print_at s n).2 + writtenTotal (print_at s n).1 ns

theorem print_at_spec (s : Int) (n : Nat) (h : 0 ≤ s) :
    print_at s n = (max 0 (s - n), (max 0 ((n : Int) - s)).toNat) := by
  unfold print_at pySuffixLen
  split_ifs <;> simp only [Prod.mk.injEq] <;> omega

theorem printSeq_spec (s : Int) (ns : List Nat) (h : 0 ≤ s) :
    scrollAfter s ns = max 0 (s - (ns.sum : Int)) ∧
      ((writtenTotal s ns : Int) = max 0 ((ns.sum : Int) - s)) := by
  induction ns generalizing s with
  | nil =>
    refine ⟨?_, ?_⟩
    · show s = max 0 (s - (((0:Nat)) : Int)); omega
    · show ((0:Nat) : Int) = max 0 ((((0:Nat)) : Int) - s); omega
  | cons n ns ih =>
    obtain ⟨h1, h2⟩ := ih (max 0 (s - (n : Int))) (le_max_left 0 _)
    rw [scrollAfter, writtenTotal, print_at_spec s n h]
    dsimp only
    rw [List.sum_cons]
    omega

/-- C1: for every non-negative base scroll `S` set via `set_scroll` and
every sequence of `print_at` calls whose text lengths sum to `L`, the sum
of the returned character counts equals `max 0 (L - S)`, and the internal
scroll counter is non-negative after every prefix of the sequence. -/
theorem scroll_writer_conservation (S : Int) (pre suf : List Nat)
    (hS : 0 ≤ S) :
    ((writtenTotal S (pre ++ suf) : Int) =
        max 0 (((pre ++ suf).sum : Int) - S)) ∧
      0 ≤ scrollAfter S pre := by
  refine ⟨(printSeq_spec S (pre ++ suf) hS).2, ?_⟩
  have h1 := (printSeq_spec S pre hS).1
  omega

/-- Witness for C1 at `S = 3` and text lengths `[2] ++ [2, 2]`. -/
theorem scroll_writer_conservation_witness :
    ((writtenTotal 3 ([2] ++ [2, 2]) : Int) =
        max 0 (((([2] ++ [2, 2] : List Nat)).sum : Int) - 3)) ∧
      0 ≤ scrollAfter 3 [2] :=
  scroll_writer_conservation 3 [2] [2, 2] (by decide)

/-!
## Key registry and events

The `Keys` class maps each logical action to a list of key values; a key
value is either an asciimatics named-key code (a distinct negative
integer) or the ordinal of a printable character.  Since that integer
encoding is injective, key codes are modelled by an inductive type with
one constructor per named key used plus one for characters. -/

inductive KeyCode
  | KEY_F1 | KEY_F2 | KEY_F3 | KEY_F4 | KEY_F6 | KEY_F7 | KEY_F8
  | KEY_F9 | KEY_F10 | KEY_ESCAPE | KEY_DELETE
  | KEY_UP | KEY_DOWN | KEY_LEFT | KEY_RIGHT
  | char (c : Char)
  deriving DecidableEq, Repr

/-! The `Keys` registry (interface.py lines 42-69). -/
namespace Keys

def HELP : List KeyCode := [.KEY_F1, .char 'h']
def SETUP : List KeyCode := [.KEY_F2]
def TOGGLE_RESUME_PAUSE : List KeyCode := [.char ' ']
def PRIORITY_UP : List KeyCode := [.KEY_F7, .char 'u', .char '[']
def PRIORITY_DOWN : List KeyCode := [.KEY_F8, .char 'd', .char ']']
def REVERSE_SORT : List KeyCode := [.char 'I']
def NEXT_SORT : List KeyCode := [.char 'n', .char '>']
def PREVIOUS_SORT : List KeyCode := [.char 'p', .char '<']
def SELECT_SORT : List KeyCode := [.KEY_F6]
def REMOVE_ASK : List KeyCode := [.KEY_F9, .KEY_DELETE]
def TOGGLE_EXPAND_COLLAPSE : List KeyCode := [.char 'x']
def TOGGLE_EXPAND_COLLAPSE_ALL : List KeyCode := [.char 'X']
def AUTOCLEAR : List KeyCode := [.char 'c']
def FOLLOW_ROW : List KeyCode := [.char 'F']
def SEARCH : List KeyCode := [.KEY_F3, .char '/']
def FILTER : List KeyCode := [.KEY_F4, .char '\\']
def TOGGLE_SELECT : List KeyCode := [.char 's']
def UN_SELECT_ALL : List KeyCode := [.char 'U']
def QUIT : List KeyCode := [.KEY_F10, .char 'q']
def CANCEL : List KeyCode := [.KEY_ESCAPE]
def ENTER : List KeyCode := [.char '\n']
def MOVE_UP : List KeyCode := [.KEY_UP]
def MOVE_DOWN : List KeyCode := [.KEY_DOWN]
def MOVE_LEFT : List KeyCode := [.KEY_LEFT]
def MOVE_RIGHT : List KeyCode := [.KEY_RIGHT]

end Keys

/-- An input event: a keyboard event carrying a key code, or a mouse event
carrying coordinates and whether the LEFT_CLICK bit of the button mask is
set (the only bit the interface inspects). -/
inductive Event
  | key (code : KeyCode)
  | mouse (x y : Int) (leftClick : Bool)
  deriving DecidableEq, Repr

/-- Exceptions: `exitSig` models the dedicated `Exit` exception raised by
the Quit action; `pyErr` models any other exception (`ValueError` from
`get_column_at_x`, `IndexError` from list subscripts, `ValueError` from
`list.index`). -/
inductive Fault
  | exitSig
  | pyErr
  deriving DecidableEq, Repr

/-- Download status. Modelled from the spec: the status enum
`{active, waiting, paused, error, complete}` of the external Task entity
(the `Download` class lives in the daemon-API module, outside this
module's source). -/
inductive DStatus
  | active | waiting | paused | error | complete
  deriving DecidableEq, Repr

def statusText : DStatus → String
  | .active => "active"
  | .waiting => "waiting"
  | .paused => "paused"
  | .error => "error"
  | .complete => "complete"

/-- Modelled from the spec: the Task entity owned by the daemon
collaborator — identifier, status, numeric progress/size/rates/eta and a
display name.  Two downloads are identified by their `gid` (the spec's
"weak follow relation" is an identity key resolved by lookup). -/
structure Download where
  gid : String
  status : DStatus
  progress : Int
  total_length : Int
  download_speed : Int
  upload_speed : Int
  eta : Int
  name : String
  deriving DecidableEq, Repr

/-- A command issued to the daemon collaborator (the `self.api` /
`download.<method>()` calls); the interface performs no local state
change for these. -/
inductive Cmd
  | pause (gid : String)
  | resume (gid : String)
  | moveUp (gid : String)
  | moveDown (gid : String)
  | autopurge
  | remove (gid : String) (force files : Bool)
  deriving DecidableEq, Repr

/-- The UI mode (`Interface.State`, values 0-4). -/
inductive Mode
  | main | help | setup | removeAsk | selectSort
  deriving DecidableEq, Repr

/-- Python list subscript `l[i]` for `i : Int`: non-negative indices are
positions from the front, negative indices count from the back, anything
else raises `IndexError`. -/
def pyGet {α : Type} (l : List α) (i : Int) : Except Fault α :=
  if h : 0 ≤ i ∧ i < l.length then
    .ok (l.get ⟨i.toNat, by omega⟩)
  else if h2 : -(l.length : Int) ≤ i ∧ i < 0 then
    .ok (l.get ⟨((l.length : Int) + i).toNat, by omega⟩)
  else
    .error .pyErr

/-!
## Column model

Each column descriptor carries a header and a padding spec; the
text-projection and sort-key closures are modelled by the separate
functions `column_get_text` and `column_get_sort` below (static dispatch
on the column name, one case per entry of the `columns` dict). -/

structure Column where
  header : String
  padding : String
  deriving DecidableEq, Repr

def columnsOrder : List String :=
  ["gid", "status", "progress", "size", "down_speed", "up_speed", "eta", "name"]

def columns (name : String) : Column :=
  if name = "gid" then ⟨"GID", ">16"⟩
  else if name = "status" then ⟨"STATUS", "<9"⟩
  else if name = "progress" then ⟨"PROGRESS", ">8"⟩
  else if name = "size" then ⟨"SIZE", ">11"⟩
  else if name = "down_speed" then ⟨"DOWN_SPEED", ">13"⟩
  else if name = "up_speed" then ⟨"UP_SPEED", ">13"⟩
  else if name = "eta" then ⟨"ETA", ">8"⟩
  else ⟨"NAME", "100%"⟩

/-- The value of a column's sort-key closure: the `gid`, `status` and
`name` columns sort by a string, the numeric columns by a number. -/
inductive SortKey
  | str (s : String)
  | int (n : Int)
  deriving DecidableEq, Repr

/-- Lexicographic comparison of char lists (the order Python uses on
strings, by code point). -/
def charListLe : List Char → List Char → Bool
  | [], _ => true
  | _ :: _, [] => false
  | c :: cs, d :: ds => if c = d then charListLe cs ds else decide (c < d)

/-- Total comparison on sort keys.  Keys of distinct shapes are never
compared in a single sort pass (every column produces keys of one shape),
so the cross cases are arbitrary. -/
def skLe : SortKey → SortKey → Bool
  | .str a, .str b => charListLe a.data b.data
  | .int a, .int b => decide (a ≤ b)
  | .str _, .int _ => true
  | .int _, .str _ => false

/-- The `get_sort` closure of each column (interface.py lines 260-313).
The numeric fields stand for the values of the corresponding `Download`
properties of the daemon-API module. -/
def column_get_sort (name : String) (d : Download) : SortKey :=
  if name = "gid" then .str d.gid
  else if name = "status" then .str (statusText d.status)
  else if name = "progress" then .int d.progress
  else if name = "size" then .int d.total_length
  else if name = "down_speed" then .int d.download_speed
  else if name = "up_speed" then .int d.upload_speed
  else if name = "eta" then .int d.eta
  else .str d.name

/-- The `get_text` closure of each column.  Modelled from the spec: the
formatting helpers (`progress_string` etc.) live on the external Task
entity; only the shape (one display string per column) matters here. -/
def column_get_text (name : String) (d : Download) : String :=
  if name = "gid" then d.gid
  else if name = "status" then statusText d.status
  else if name = "progress" then toString d.progress
  else if name = "size" then toString d.total_length
  else if name = "down_speed" then toString d.download_speed
  else if name = "up_speed" then toString d.upload_speed
  else if name = "eta" then toString d.eta
  else d.name

def remove_ask_header : String := "Remove:"

/-- The `remove_ask_rows` menu: label, and the `force`/`files` flags of
the `remove` command the entry invokes. -/
def remove_ask_rows : List (String × Bool × Bool) :=
  [("Remove", false, false), ("Remove with files", false, true),
   ("Force remove", true, false), ("Force remove with files", true, true)]

def select_sort_header : String := "Select sort:"

def select_sort_rows : List String := columnsOrder

/-- Python `max` over a non-empty list of naturals. -/
def listMax (l : List Nat) : Nat := l.foldr max 0

def width_remove_ask : Nat :=
  max remove_ask_header.length (listMax (remove_ask_rows.map (fun r => r.1.length)))

def width_select_sort : Nat :=
  listMax ((columnsOrder ++ [select_sort_header]).map String.length)

/-!
## View state

The mutable class-level fields of `Interface` that the handlers read or
write (interface.py lines 218-238). -/

structure IState where
  mode : Mode
  frame : Int
  focused : Int
  side_focused : Int
  sort : Int
  reverse : Bool
  x_scroll : Int
  x_offset : Int
  y_offset : Int
  row_offset : Int
  refresh : Bool
  width : Int
  height : Int
  data : List Download
  rows : List (List String)
  follow : Option Download
  last_remove_choice : Option Int
  bounds : List (Int × Int)
  deriving DecidableEq, Repr

deriving instance DecidableEq for Except

/-- Decimal digits to a natural number (`int(...)` on an all-digit
string). -/
def digitsToNat (cs : List Char) : Nat :=
  cs.foldl (fun acc c => acc * 10 + (c.toNat - '0'.toNat)) 0

/-- `int(column.padding.lstrip("<>=^"))` for the fixed-width paddings. -/
def parsePad (s : String) : Int :=
  (digitsToNat (s.data.dropWhile fun c =>
    c = '<' || c = '>' || c = '=' || c = '^') : Nat)

/-- `bounds[-1][1]`, the end of the last bound computed so far (the
source only reads it when `bounds` is non-empty). -/
def lastEnd (bounds : List (Int × Int)) : Int :=
  ((bounds.getLast?).map Prod.snd).getD 0

/-- One step of the bounds loop in `set_screen`
(interface.py lines 814-824). -/
def boundsStep (width : Int) (bounds : List (Int × Int)) (name : String) :
    List (Int × Int) :=
  let column := columns name
  if column.padding = "100%" then
    bounds ++ [(lastEnd bounds + 1, width)]
  else
    let padding := parsePad column.padding
    if bounds = [] then [(0, padding)]
    else bounds ++ [(lastEnd bounds + 1, lastEnd bounds + 1 + padding)]

/-- The column bounds computed by `set_screen` for a screen of the given
width. -/
def set_screen_bounds (width : Int) : List (Int × Int) :=
  columnsOrder.foldl (boundsStep width) []

/-- `get_column_at_x` (interface.py lines 802-807): index of the first
bound `b` with `b[0] <= x <= b[1]`, `ValueError` when none matches. -/
def get_column_at_x (bounds : List (Int × Int)) (x : Int) : Except Fault Nat :=
  match bounds with
  | [] => .error .pyErr
  | b :: bs =>
    if b.1 ≤ x ∧ x ≤ b.2 then .ok 0
    else (get_column_at_x bs x).map (· + 1)

/-!
## Event handlers

Each handler takes the state and the event and returns the new state
together with the list of commands issued to the collaborator, or a
fault.  In every raising path the source raises before mutating state. -/

/-- The Up branch of `process_keyboard_event_main`
(interface.py lines 448-457). -/
def moveUpState (s : IState) : IState :=
  if s.focused > 0 then
    let f := s.focused - 1
    let ro :=
      if f < s.row_offset then f
      else if f ≥ s.row_offset + (s.height - 1) then f + 1 - (s.height - 1)
      else s.row_offset
    { s with focused := f, row_offset := ro, follow := none, refresh := true }
  else s

/-- The Down branch of `process_keyboard_event_main`
(interface.py lines 459-465). -/
def moveDownState (s : IState) : IState :=
  if s.focused < (s.rows.length : Int) - 1 then
    let f := s.focused + 1
    let ro :=
      if f - s.row_offset ≥ s.height - 1 then f + 1 - (s.height - 1)
      else s.row_offset
    { s with focused := f, row_offset := ro, follow := none, refresh := true }
  else s

/-- `follow_focused` (interface.py lines 649-653): set the followed
relation to the focused task if the focus index is below the data length,
returning whether it did. -/
def follow_focused (s : IState) : Except Fault (IState × Bool) :=
  if s.focused < (s.data.length : Int) then do
    let d ← pyGet s.data s.focused
    .ok ({ s with follow := some d }, true)
  else
    .ok (s, false)

/-- `process_keyboard_event_main` (interface.py lines 447-555). -/
def process_keyboard_event_main (s : IState) (c : KeyCode) :
    Except Fault (IState × List Cmd) :=
  if c ∈ Keys.MOVE_UP then
    .ok (moveUpState s, [])
  else if c ∈ Keys.MOVE_DOWN then
    .ok (moveDownState s, [])
  else if c ∈ Keys.MOVE_LEFT then
    .ok (if s.x_scroll > 0 then
          ({ s with x_scroll := max 0 (s.x_scroll - 5), refresh := true }, [])
        else (s, []))
  else if c ∈ Keys.MOVE_RIGHT then
    .ok ({ s with x_scroll := s.x_scroll + 5, refresh := true }, [])
  else if c ∈ Keys.HELP then
    .ok ({ s with mode := .help, refresh := true }, [])
  else if c ∈ Keys.SETUP then
    .ok (s, [])
  else if c ∈ Keys.TOGGLE_RESUME_PAUSE then do
    let d ← pyGet s.data s.focused
    if d.status = .active ∨ d.status = .waiting then
      .ok (s, [.pause d.gid])
    else if d.status = .paused then
      .ok (s, [.resume d.gid])
    else
      .ok (s, [])
  else if c ∈ Keys.PRIORITY_UP then do
    let d ← pyGet s.data s.focused
    if ¬d.status = .active then
      .ok ({ s with follow := some d }, [.moveUp d.gid])
    else
      .ok (s, [])
  else if c ∈ Keys.PRIORITY_DOWN then do
    let d ← pyGet s.data s.focused
    if ¬d.status = .active then
      .ok ({ s with follow := some d }, [.moveDown d.gid])
    else
      .ok (s, [])
  else if c ∈ Keys.REVERSE_SORT then
    .ok ({ s with reverse := !s.reverse, refresh := true }, [])
  else if c ∈ Keys.NEXT_SORT then
    .ok (if s.sort < (columnsOrder.length : Int) - 1 then
          ({ s with sort := s.sort + 1, refresh := true }, [])
        else (s, []))
  else if c ∈ Keys.PREVIOUS_SORT then
    .ok (if s.sort > 0 then
          ({ s with sort := s.sort - 1, refresh := true }, [])
        else (s, []))
  else if c ∈ Keys.SELECT_SORT then
    .ok ({ s with mode := .selectSort, side_focused := s.sort,
                  x_offset := (width_select_sort : Int) + 1,
                  refresh := true }, [])
  else if c ∈ Keys.REMOVE_ASK then do
    let (s1, followed) ← follow_focused s
    if followed then
      let s2 := { s1 with mode := .removeAsk,
                          x_offset := (width_remove_ask : Int) + 1 }
      let s3 :=
        match s2.last_remove_choice with
        | some v => { s2 with side_focused := v }
        | none => s2
      .ok ({ s3 with refresh := true }, [])
    else
      .ok (s1, [])
  else if c ∈ Keys.TOGGLE_EXPAND_COLLAPSE then
    .ok (s, [])
  else if c ∈ Keys.TOGGLE_EXPAND_COLLAPSE_ALL then
    .ok (s, [])
  else if c ∈ Keys.AUTOCLEAR then
    .ok (s, [.autopurge])
  else if c ∈ Keys.FOLLOW_ROW then do
    let (s1, _) ← follow_focused s
    .ok (s1, [])
  else if c ∈ Keys.SEARCH then
    .ok (s, [])
  else if c ∈ Keys.FILTER then
    .ok (s, [])
  else if c ∈ Keys.TOGGLE_SELECT then
    .ok (s, [])
  else if c ∈ Keys.UN_SELECT_ALL then
    .ok (s, [])
  else if c ∈ Keys.QUIT then
    .error .exitSig
  else
    .ok (s, [])

/-- `process_keyboard_event_help` (interface.py lines 557-559): any key
returns to Main. -/
def process_keyboard_event_help (s : IState) (_ : KeyCode) :
    Except Fault (IState × List Cmd) :=
  .ok ({ s with mode := .main, refresh := true }, [])

/-- `process_keyboard_event_remove_ask` (interface.py lines 564-589). -/
def process_keyboard_event_remove_ask (s : IState) (c : KeyCode) :
    Except Fault (IState × List Cmd) :=
  if c ∈ Keys.CANCEL then
    .ok ({ s with mode := .main, x_offset := 0, refresh := true }, [])
  else if c ∈ Keys.ENTER then
    match s.follow with
    | some t => do
      let row ← pyGet remove_ask_rows s.side_focused
      .ok ({ s with follow := none, last_remove_choice := some s.side_focused,
                    mode := .main, x_offset := 0, frame := 0 },
           [.remove t.gid row.2.1 row.2.2])
    | none =>
      .ok ({ s with last_remove_choice := some s.side_focused,
                    mode := .main, x_offset := 0, frame := 0 }, [])
  else if c ∈ Keys.MOVE_UP then
    .ok (if s.side_focused > 0 then
          ({ s with side_focused := s.side_focused - 1, refresh := true }, [])
        else (s, []))
  else if c ∈ Keys.MOVE_DOWN then
    .ok (if s.side_focused < (remove_ask_rows.length : Int) - 1 then
          ({ s with side_focused := s.side_focused + 1, refresh := true }, [])
        else (s, []))
  else
    .ok (s, [])

/-- `process_keyboard_event_select_sort` (interface.py lines 591-611). -/
def process_keyboard_event_select_sort (s : IState) (c : KeyCode) :
    Except Fault (IState × List Cmd) :=
  if c ∈ Keys.CANCEL then
    .ok ({ s with mode := .main, x_offset := 0, refresh := true }, [])
  else if c ∈ Keys.ENTER then
    .ok ({ s with sort := s.side_focused, mode := .main, x_offset := 0,
                  refresh := true }, [])
  else if c ∈ Keys.MOVE_UP then
    .ok (if s.side_focused > 0 then
          ({ s with side_focused := s.side_focused - 1, refresh := true }, [])
        else (s, []))
  else if c ∈ Keys.MOVE_DOWN then
    .ok (if s.side_focused < (select_sort_rows.length : Int) - 1 then
          ({ s with side_focused := s.side_focused + 1, refresh := true }, [])
        else (s, []))
  else
    .ok (s, [])

/-- `process_mouse_event_main` (interface.py lines 616-626). -/
def process_mouse_event_main (s : IState) (x y : Int) (leftClick : Bool) :
    Except Fault (IState × List Cmd) :=
  if leftClick then
    if y = 0 then do
      let new_sort ← get_column_at_x s.bounds x
      if (new_sort : Int) = s.sort then
        .ok ({ s with reverse := !s.reverse, refresh := true }, [])
      else
        .ok ({ s with sort := (new_sort : Int), refresh := true }, [])
    else
      .ok ({ s with
              focused := min (y - 1 + s.row_offset) ((s.rows.length : Int) - 1),
              refresh := true }, [])
  else
    .ok (s, [])

/-- `process_event` (interface.py lines 428-445, 613-641): dispatch
through `state_mapping` on the current mode.  The mouse handlers of every
mode other than Main are no-ops. -/
def process_event (s : IState) (e : Event) : Except Fault (IState × List Cmd) :=
  match e with
  | .key c =>
    match s.mode with
    | .main => process_keyboard_event_main s c
    | .help => process_keyboard_event_help s c
    | .setup => .ok (s, [])
    | .removeAsk => process_keyboard_event_remove_ask s c
    | .selectSort => process_keyboard_event_select_sort s c
  | .mouse x y leftClick =>
    match s.mode with
    | .main => process_mouse_event_main s x y leftClick
    | _ => .ok (s, [])

/-!
## Sorting and data refresh

Python's `sorted(data, key=k, reverse=rev)` is a stable sort; with
`reverse=True` CPython reverses the list, sorts it ascending (stably) and
reverses it again, so records with equal keys keep their original
relative order in both directions.  A stable ascending sort is uniquely
determined by its output being sorted and preserving the relative order
of equivalent elements, so `List.insertionSort` (which is stable) is an
exact model of the ascending pass. -/

/-- `sorted(l, key=..., reverse=rev)` where `r` is the "key of `a` is at
most key of `b`" relation. -/
def pySortBy {α : Type} (r : α → α → Prop) [DecidableRel r] (rev : Bool)
    (l : List α) : List α :=
  if rev then (List.insertionSort r l.reverse).reverse
  else List.insertionSort r l

/-- `sort_data` (interface.py lines 835-838): sort the data by the
focused sort column's key, direction given by `reverse`. -/
def sort_data (s : IState) : Except Fault IState := do
  let cname ← pyGet columnsOrder s.sort
  .ok { s with
          data := pySortBy
            (fun a b => skLe (column_get_sort cname a) (column_get_sort cname b) = true)
            s.reverse s.data }

/-- `update_data` (interface.py lines 830-833): refetch from the
collaborator (the fetched list is passed in) and sort. -/
def update_data (s : IState) (fetched : List Download) : Except Fault IState :=
  sort_data { s with data := fetched }

/-- `list.index` resolved by the Task identity (`Download.__eq__`
compares by `gid`; modelled from the spec's "weak follow relation is an
identity key resolved by lookup"): index of the first element with the
same gid. -/
def pyIndexOf (t : Download) : List Download → Option Nat
  | [] => none
  | d :: ds => if d.gid = t.gid then some 0 else (pyIndexOf t ds).map (· + 1)

/-- `update_rows` (interface.py lines 840-846): rebuild the display rows
from the data, then, if a task is followed, move the focus to its index
in the fresh data — raising `ValueError` when it is absent. -/
def update_rows (s : IState) : Except Fault IState :=
  let rows := s.data.map (fun d => columnsOrder.map (fun c => column_get_text c d))
  match s.follow with
  | some t =>
    match pyIndexOf t s.data with
    | some i => .ok { s with rows := rows, focused := (i : Int) }
    | none => .error .pyErr
  | none => .ok { s with rows := rows }

/-!
## The render loop

`run` (interface.py lines 369-423): the inner loop drains all pending
events, catching any non-`Exit` exception per event (the state is
unchanged in that case because every raising path raises before mutating),
then at frame 0 refetches and rebuilds outside that per-event handler,
then re-sorts if the sort changed, and finally advances the frame counter.
`Exit` makes `run` return `True`; any exception reaching the outer
handler makes it return `False`. -/

inductive DrainOut
  | exited
  | done (s : IState)
  deriving DecidableEq, Repr

/-- The event-draining loop of one frame (interface.py lines 388-398). -/
def drain (s : IState) : List Event → DrainOut
  | [] => .done s
  | e :: es =>
    match process_event s e with
    | .ok (s', _) => drain s' es
    | .error .exitSig => .exited
    | .error .pyErr => drain s es

/-- The state reached after processing a list of events with the
per-event exception handler (exceptions leave the state unchanged). -/
def procList (s : IState) : List Event → IState
  | [] => s
  | e :: es =>
    match process_event s e with
    | .ok (s', _) => procList s' es
    | .error _ => procList s es

inductive StepRes
  | exit
  | fatal
  | cont (s : IState)
  deriving DecidableEq, Repr

/-- One iteration of the inner loop of `run` for a frame with the given
pending events and (when the frame counter is 0) freshly fetched data.
Painting is a pure side effect and is skipped. -/
def runFrame (s : IState) (events : List Event) (fetched : List Download) :
    StepRes :=
  let prev := (s.sort, s.reverse)
  match drain { s with refresh := false } events with
  | .exited => .exit
  | .done s1 =>
    match (if s1.frame = 0 then
            (update_data s1 fetched >>= update_rows).map
              (fun s2 => { s2 with refresh := true })
          else .ok s1) with
    | .error _ => .fatal
    | .ok s2 =>
      match (if s2.refresh ∧ ((s2.sort, s2.reverse) ≠ prev ∧ ¬s2.frame = 0) then
              sort_data s2 >>= update_rows
            else .ok s2) with
      | .error _ => .fatal
      | .ok s3 => .cont { s3 with frame := (s3.frame + 1) % 200 }

/-- The inner loop of `run` over a finite schedule of frames: `some true`
on the Quit exit, `some false` when an exception reaches the outer
handler, `none` when the schedule is exhausted with the loop still
running. -/
def runLoop (s : IState) : List (List Event × List Download) → Option Bool
  | [] => none
  | f :: fs =>
    match runFrame s f.1 f.2 with
    | .exit => some true
    | .fatal => some false
    | .cont s' => runLoop s' fs

/-!
## Claim theorems
-/

/-- A concrete state used by the witnesses. -/
def sampleDownload : Download :=
  ⟨"2089b05ecca3d829", .paused, 10, 100, 0, 0, 5, "file1"⟩

/-- A concrete state used by the witnesses. -/
def sampleState : IState :=
  { mode := .main, frame := 1, focused := 0, side_focused := 0, sort := 2,
    reverse := true, x_scroll := 0, x_offset := 0, y_offset := 0,
    row_offset := 0, refresh := false, width := 100, height := 30,
    data := [sampleDownload],
    rows := [columnsOrder.map (fun c => column_get_text c sampleDownload)],
    follow := none, last_remove_choice := none,
    bounds := set_screen_bounds 100 }

/-- C7: for every side-panel focus index, pressing Enter in SelectSort
mode sets the main-mode sort column index to exactly the side-panel focus
index, resets the horizontal offset to 0, and returns to Main mode. -/
theorem select_sort_enter_commits (s : IState) (h : s.mode = .selectSort) :
    process_event s (.key (.char '\n')) =
      .ok ({ s with sort := s.side_focused, mode := .main, x_offset := 0,
                    refresh := true }, []) := by
  simp [process_event, h, process_keyboard_event_select_sort,
        Keys.CANCEL, Keys.ENTER]

/-- Witness for C7 at a concrete SelectSort-mode state. -/
theorem select_sort_enter_commits_witness :
    process_event { sampleState with mode := .selectSort } (.key (.char '\n')) =
      .ok ({ { sampleState with mode := .selectSort } with
              sort := ({ sampleState with mode := .selectSort }).side_focused,
              mode := .main, x_offset := 0, refresh := true }, []) :=
  select_sort_enter_commits { sampleState with mode := .selectSort } rfl

/-- C5: in Main mode with a focused task, ToggleResumePause issues the
pause command when the task is active or waiting, the resume command when
it is paused, and no command otherwise (error, complete); the UI state is
unchanged in every case. -/
theorem toggle_resume_pause_commands (s : IState) (d : Download)
    (hmode : s.mode = .main) (hfocus : pyGet s.data s.focused = .ok d) :
    process_event s (.key (.char ' ')) =
      .ok (s,
        if d.status = .active ∨ d.status = .waiting then [Cmd.pause d.gid]
        else if d.status = .paused then [Cmd.resume d.gid]
        else []) := by
  obtain ⟨gid, st, p, tl, dspeed, uspeed, eta, name⟩ := d
  cases st <;>
    simp [process_event, hmode, process_keyboard_event_main, hfocus,
          Keys.MOVE_UP, Keys.MOVE_DOWN, Keys.MOVE_LEFT, Keys.MOVE_RIGHT,
          Keys.HELP, Keys.SETUP, Keys.TOGGLE_RESUME_PAUSE,
          Except.instMonad, Except.bind]

/-- Witness for C5: the sample state's focused task is paused, so the
resume command is issued and the state is unchanged. -/
theorem toggle_resume_pause_commands_witness :
    process_event sampleState (.key (.char ' ')) =
      .ok (sampleState,
        if sampleDownload.status = .active ∨ sampleDownload.status = .waiting
        then [Cmd.pause sampleDownload.gid]
        else if sampleDownload.status = .paused
        then [Cmd.resume sampleDownload.gid]
        else []) :=
  toggle_resume_pause_commands sampleState sampleDownload rfl (by decide)

theorem follow_focused_of_lt (s : IState) (h0 : 0 ≤ s.focused)
    (hlt : s.focused < (s.data.length : Int)) :
    follow_focused s =
      .ok ({ s with
              follow := some (s.data.get ⟨s.focused.toNat, by omega⟩) }, true) := by
  unfold follow_focused pyGet
  rw [if_pos hlt, dif_pos ⟨h0, hlt⟩]
  rfl

theorem follow_focused_of_ge (s : IState)
    (hge : ¬s.focused < (s.data.length : Int)) :
    follow_focused s = .ok (s, false) := by
  unfold follow_focused
  rw [if_neg hge]

/-- C6: a RemoveAsk event in Main mode switches to RemoveConfirm mode iff
a task is focused (the focus index is a valid index into the data, which
also sets the followed relation); otherwise the whole state is
unchanged. -/
theorem remove_ask_requires_focus (s : IState)
    (hmode : s.mode = .main) (h0 : 0 ≤ s.focused) :
    ∃ s', process_event s (.key .KEY_F9) = .ok (s', []) ∧
      (s'.mode = .removeAsk ↔ s.focused < (s.data.length : Int)) ∧
      (¬s.focused < (s.data.length : Int) → s' = s) ∧
      (∀ hlt : s.focused < (s.data.length : Int),
        s'.follow = some (s.data.get ⟨s.focused.toNat, by omega⟩)) := by
  by_cases hlt : s.focused < (s.data.length : Int)
  · have hf := follow_focused_of_lt s h0 hlt
    cases hlc : s.last_remove_choice with
    | none =>
      refine ⟨{ s with follow := some (s.data.get ⟨s.focused.toNat, by omega⟩),
                       mode := .removeAsk,
                       x_offset := (width_remove_ask : Int) + 1,
                       refresh := true }, ?_, by simp [hlt], fun h => absurd hlt h,
              fun _ => rfl⟩
      simp [process_event, hmode, process_keyboard_event_main, hf, hlc,
            Keys.MOVE_UP, Keys.MOVE_DOWN, Keys.MOVE_LEFT, Keys.MOVE_RIGHT,
            Keys.HELP, Keys.SETUP, Keys.TOGGLE_RESUME_PAUSE, Keys.PRIORITY_UP,
            Keys.PRIORITY_DOWN, Keys.REVERSE_SORT, Keys.NEXT_SORT,
            Keys.PREVIOUS_SORT, Keys.SELECT_SORT, Keys.REMOVE_ASK,
            Except.instMonad, Except.bind]
    | some v =>
      refine ⟨{ s with follow := some (s.data.get ⟨s.focused.toNat, by omega⟩),
                       mode := .removeAsk,
                       x_offset := (width_remove_ask : Int) + 1,
                       side_focused := v,
                       refresh := true }, ?_, by simp [hlt], fun h => absurd hlt h,
              fun _ => rfl⟩
      simp [process_event, hmode, process_keyboard_event_main, hf, hlc,
            Keys.MOVE_UP, Keys.MOVE_DOWN, Keys.MOVE_LEFT, Keys.MOVE_RIGHT,
            Keys.HELP, Keys.SETUP, Keys.TOGGLE_RESUME_PAUSE, Keys.PRIORITY_UP,
            Keys.PRIORITY_DOWN, Keys.REVERSE_SORT, Keys.NEXT_SORT,
            Keys.PREVIOUS_SORT, Keys.SELECT_SORT, Keys.REMOVE_ASK,
            Except.instMonad, Except.bind]
  · have hf := follow_focused_of_ge s hlt
    refine ⟨s, ?_, ?_, fun _ => rfl, fun h => absurd h hlt⟩
    · simp [process_event, hmode, process_keyboard_event_main, hf,
            Keys.MOVE_UP, Keys.MOVE_DOWN, Keys.MOVE_LEFT, Keys.MOVE_RIGHT,
            Keys.HELP, Keys.SETUP, Keys.TOGGLE_RESUME_PAUSE, Keys.PRIORITY_UP,
            Keys.PRIORITY_DOWN, Keys.REVERSE_SORT, Keys.NEXT_SORT,
            Keys.PREVIOUS_SORT, Keys.SELECT_SORT, Keys.REMOVE_ASK,
            Except.instMonad, Except.bind]
    · simp [hmode, hlt]

/-- Witness for C6 at the sample state (one task, focus on it). -/
theorem remove_ask_requires_focus_witness :
    ∃ s', process_event sampleState (.key .KEY_F9) = .ok (s', []) ∧
      (s'.mode = .removeAsk ↔
        sampleState.focused < (sampleState.data.length : Int)) ∧
      (¬sampleState.focused < (sampleState.data.length : Int) →
        s' = sampleState) ∧
      (∀ _hlt : sampleState.focused < (sampleState.data.length : Int),
        s'.follow =
          some (sampleState.data.get ⟨sampleState.focused.toNat, by decide⟩)) :=
  remove_ask_requires_focus sampleState rfl (by decide)

/-- C10: in Main mode, a left click at a row `y ≥ 1` while the rows list
is empty and `row_offset` is 0 sets the focus index to `-1`
(`min (y - 1 + row_offset) (len(rows) - 1)`), with no clamping to 0. -/
theorem click_empty_rows_focus_minus_one (s : IState) (x y : Int)
    (hmode : s.mode = .main) (hrows : s.rows = [])
    (hro : s.row_offset = 0) (hy : 1 ≤ y) :
    process_event s (.mouse x y true) =
      .ok ({ s with focused := -1, refresh := true }, []) := by
  have hmin : min (y - 1 + s.row_offset) ((s.rows.length : Int) - 1) = -1 := by
    rw [hrows, hro]
    simp
    omega
  simp [process_event, hmode, process_mouse_event_main, hmin,
        if_neg (by omega : ¬y = 0)]

/-- Witness for C10 at the sample state with the rows list emptied. -/
theorem click_empty_rows_focus_minus_one_witness :
    process_event { sampleState with rows := [] } (.mouse 3 2 true) =
      .ok ({ { sampleState with rows := [] } with
              focused := -1, refresh := true }, []) :=
  click_empty_rows_focus_minus_one { sampleState with rows := [] } 3 2
    rfl rfl rfl (by decide)

/-!
### C2: the Up/Down focus window invariant
-/

/-- The Main-mode focus invariant of the claim: focus inside the rows
list and inside the visible window of `height - 1` rows. -/
def MainInv (s : IState) : Prop :=
  s.mode = .main ∧ 0 ≤ s.focused ∧ s.focused < (s.rows.length : Int) ∧
    s.row_offset ≤ s.focused ∧ s.focused < s.row_offset + (s.height - 1)

instance (s : IState) : Decidable (MainInv s) := by
  unfold MainInv
  infer_instance

/-- Processing a list of events without any per-event exception
handling: used to state that a whole burst of Up/Down events goes
through without faults and preserves the invariant. -/
def applyEvents (s : IState) : List Event → Except Fault IState
  | [] => .ok s
  | e :: es =>
    match process_event s e with
    | .ok (s', _) => applyEvents s' es
    | .error f => .error f

theorem moveUpState_inv (s : IState) (h : MainInv s) :
    MainInv (moveUpState s) := by
  obtain ⟨hm, h1, h2, h3, h4⟩ := h
  unfold MainInv moveUpState
  split_ifs <;> refine ⟨hm, ?_, ?_, ?_, ?_⟩ <;> (try simp only []) <;> omega

theorem moveDownState_inv (s : IState) (h : MainInv s) :
    MainInv (moveDownState s) := by
  obtain ⟨hm, h1, h2, h3, h4⟩ := h
  unfold MainInv moveDownState
  split_ifs <;> refine ⟨hm, ?_, ?_, ?_, ?_⟩ <;> (try simp only []) <;> omega

theorem process_event_up (s : IState) (hmode : s.mode = .main) :
    process_event s (.key .KEY_UP) = .ok (moveUpState s, []) := by
  simp [process_event, hmode, process_keyboard_event_main, Keys.MOVE_UP]

theorem process_event_down (s : IState) (hmode : s.mode = .main) :
    process_event s (.key .KEY_DOWN) = .ok (moveDownState s, []) := by
  simp [process_event, hmode, process_keyboard_event_main,
        Keys.MOVE_UP, Keys.MOVE_DOWN]

/-- C2: from a Main-mode state where the focus is a valid row index and
sits inside the visible window of `height - 1` rows, every sequence of
Up/Down keyboard events runs without fault, and preserves both the focus
bounds and the window condition. -/
theorem up_down_preserves_focus_window (s : IState) (events : List Event)
    (hinv : MainInv s)
    (hud : ∀ e ∈ events, e = Event.key .KEY_UP ∨ e = Event.key .KEY_DOWN) :
    ∃ s', applyEvents s events = .ok s' ∧ MainInv s' := by
  induction events generalizing s with
  | nil => exact ⟨s, rfl, hinv⟩
  | cons e es ih =>
    rcases hud e (List.mem_cons_self e es) with he | he <;> subst he
    · have hstep := process_event_up s hinv.1
      rw [applyEvents, hstep]
      exact ih (moveUpState s) (moveUpState_inv s hinv)
        (fun e he => hud e (List.mem_cons_of_mem _ he))
    · have hstep := process_event_down s hinv.1
      rw [applyEvents, hstep]
      exact ih (moveDownState s) (moveDownState_inv s hinv)
        (fun e he => hud e (List.mem_cons_of_mem _ he))

/-- Witness for C2 at the sample state and a burst of four events. -/
theorem up_down_preserves_focus_window_witness :
    ∃ s', applyEvents sampleState
        [.key .KEY_DOWN, .key .KEY_UP, .key .KEY_UP, .key .KEY_DOWN] =
          .ok s' ∧ MainInv s' :=
  up_down_preserves_focus_window sampleState
    [.key .KEY_DOWN, .key .KEY_UP, .key .KEY_UP, .key .KEY_DOWN]
    (by decide) (by decide)

/-!
### C3: per-event exception containment in the drain loop
-/

theorem get_column_at_x_fail (bounds : List (Int × Int)) (x : Int)
    (h : bounds.all (fun b => !(decide (b.1 ≤ x ∧ x ≤ b.2))) = true) :
    get_column_at_x bounds x = .error .pyErr := by
  induction bounds with
  | nil => rfl
  | cons b bs ih =>
    simp only [List.all_cons, Bool.and_eq_true, Bool.not_eq_true',
               decide_eq_false_iff_not] at h
    unfold get_column_at_x
    rw [if_neg h.1, ih (by simpa using h.2)]
    rfl

theorem drain_exited_split (es : List Event) (s : IState)
    (h : drain s es = .exited) :
    ∃ pre e' post, es = pre ++ e' :: post ∧
      process_event (procList s pre) e' = .error .exitSig := by
  induction es generalizing s with
  | nil => simp [drain] at h
  | cons e es ih =>
    rw [drain] at h
    cases hpe : process_event s e with
    | ok p =>
      rw [hpe] at h
      obtain ⟨pre, e', post, heq, hexit⟩ := ih p.1 h
      exact ⟨e :: pre, e', post, by rw [heq]; rfl,
             by simpa only [procList, hpe] using hexit⟩
    | error f =>
      cases f with
      | exitSig => exact ⟨[], e, es, rfl, hpe⟩
      | pyErr =>
        rw [hpe] at h
        obtain ⟨pre, e', post, heq, hexit⟩ := ih s h
        exact ⟨e :: pre, e', post, by rw [heq]; rfl,
               by simpa only [procList, hpe] using hexit⟩

/-- C3: an exception raised while processing a single event (for example
a left click on the header row at an `x` outside all column bounds, which
raises in `get_column_at_x`) is caught, terminates neither the drain loop
nor the frame, and every subsequent queued event is still processed from
the same state; only the dedicated exit signal of the Quit action unwinds
the loop. -/
theorem event_errors_are_contained (s : IState) (e : Event)
    (rest es : List Event) (x : Int) :
    (process_event s e = .error .pyErr →
       drain s (e :: rest) = drain s rest) ∧
      ((s.mode = .main ∧
          s.bounds.all (fun b => !(decide (b.1 ≤ x ∧ x ≤ b.2))) = true) →
        process_event s (.mouse x 0 true) = .error .pyErr) ∧
      (drain s es = .exited →
        ∃ pre e' post, es = pre ++ e' :: post ∧
          process_event (procList s pre) e' = .error .exitSig) := by
  refine ⟨fun h => by simp only [drain, h], ?_,
          fun h => drain_exited_split es s h⟩
  rintro ⟨hmode, hall⟩
  have hcol := get_column_at_x_fail s.bounds x hall
  simp [process_event, hmode, process_mouse_event_main, hcol,
        Except.instMonad, Except.bind]

/-- Witness for C3: at the sample state, a header click at `x = 200`
(outside all bounds of a width-100 screen) errors, is contained, and a
Quit key is the only exit. -/
theorem event_errors_are_contained_witness :
    (process_event sampleState (.mouse 200 0 true) = .error .pyErr →
       drain sampleState (.mouse 200 0 true :: [.key .KEY_UP]) =
         drain sampleState [.key .KEY_UP]) ∧
      ((sampleState.mode = .main ∧
          sampleState.bounds.all
            (fun b => !(decide (b.1 ≤ (200:Int) ∧ (200:Int) ≤ b.2))) = true) →
        process_event sampleState (.mouse 200 0 true) = .error .pyErr) ∧
      (drain sampleState [.key (.char 'q')] = .exited →
        ∃ pre e' post, [Event.key (.char 'q')] = pre ++ e' :: post ∧
          process_event (procList sampleState pre) e' = .error .exitSig) :=
  event_errors_are_contained sampleState (.mouse 200 0 true)
    [.key .KEY_UP] [.key (.char 'q')] 200

/-!
### C8: the column bounds computed by `set_screen`
-/

theorem set_screen_bounds_eq (w : Int) :
    set_screen_bounds w =
      [(0, 16), (17, 26), (27, 35), (36, 47), (48, 61), (62, 75), (76, 84),
       (85, w)] := rfl

/-- C8 counterexample: the bound pairs are not half-open `[start, end)`
intervals forming a gapless monotone cover.  At width 100, position 16
lies in no pair under the `[start, end)` reading (consecutive pairs start
at the previous end plus one, leaving every end-point in a gap), yet the
inclusive hit-test lookup maps it to column 0; and at width 80 the last
pair is `(85, 80)` with start above end, so the pair list is not
monotonically increasing either. -/
theorem column_bounds_not_half_open :
    ((set_screen_bounds 100).all
        (fun b => !(decide (b.1 ≤ (16 : Int) ∧ (16 : Int) < b.2))) = true) ∧
      get_column_at_x (set_screen_bounds 100) 16 = .ok 0 ∧
      (set_screen_bounds 100).get? 0 = some (0, 16) ∧
      (set_screen_bounds 100).get? 1 = some (17, 26) ∧
      (set_screen_bounds 80).get? 7 = some (85, 80) := by
  decide

/-- C8 amended: for widths of at least 85 (the total fixed-column width),
`set_screen` produces one closed `[start, end]` pair per column, adjacent
(each start is the previous end plus one, so there are neither gaps nor
overlaps) and monotonically increasing, and every horizontal position
from the first column's start (0) to the last column's end (the screen
width) satisfies the inclusive hit-test of exactly one column. -/
theorem column_bounds_amended (w x : Int) (hw : 85 ≤ w)
    (hx : 0 ≤ x ∧ x ≤ w) :
    (set_screen_bounds w).length = columnsOrder.length ∧
      (set_screen_bounds w).Chain'
        (fun p q => p.2 + 1 = q.1 ∧ p.1 < q.1 ∧ p.2 ≤ q.2) ∧
      ((set_screen_bounds w).all (fun p => decide (p.1 ≤ p.2)) = true) ∧
      (set_screen_bounds w).countP
        (fun p => decide (p.1 ≤ x ∧ x ≤ p.2)) = 1 := by
  rw [set_screen_bounds_eq]
  refine ⟨rfl, ?_, ?_, ?_⟩
  · simp only [List.chain'_cons, List.chain'_singleton, and_true]
    omega
  · simp only [List.all_cons, List.all_nil, Bool.and_eq_true,
               decide_eq_true_eq, and_true]
    omega
  · simp only [List.countP_cons, List.countP_nil, decide_eq_true_eq]
    split_ifs <;> omega

/-- Witness for the amended C8 at width 100 and position 16. -/
theorem column_bounds_amended_witness :
    (set_screen_bounds 100).length = columnsOrder.length ∧
      (set_screen_bounds 100).Chain'
        (fun p q => p.2 + 1 = q.1 ∧ p.1 < q.1 ∧ p.2 ≤ q.2) ∧
      ((set_screen_bounds 100).all (fun p => decide (p.1 ≤ p.2)) = true) ∧
      (set_screen_bounds 100).countP
        (fun p => decide (p.1 ≤ (16 : Int) ∧ (16 : Int) ≤ p.2)) = 1 :=
  column_bounds_amended 100 16 (by decide) (by decide)

/-!
### C9: a vanished followed task aborts the run
-/

theorem pyGet_ok {α : Type} (l : List α) (i : Int) (h0 : 0 ≤ i)
    (hlt : i < (l.length : Int)) :
    pyGet l i = .ok (l.get ⟨i.toNat, by omega⟩) := by
  unfold pyGet
  rw [dif_pos ⟨h0, hlt⟩]

theorem mem_pySortBy {α : Type} (r : α → α → Prop) [DecidableRel r]
    (rev : Bool) (l : List α) (a : α) :
    a ∈ pySortBy r rev l ↔ a ∈ l := by
  unfold pySortBy
  split_ifs
  · rw [List.mem_reverse, (List.perm_insertionSort r l.reverse).mem_iff,
        List.mem_reverse]
  · exact (List.perm_insertionSort r l).mem_iff

theorem pyIndexOf_eq_none (t : Download) (l : List Download)
    (h : ∀ d ∈ l, ¬d.gid = t.gid) : pyIndexOf t l = none := by
  induction l with
  | nil => rfl
  | cons d ds ih =>
    rw [pyIndexOf, if_neg (h d (List.mem_cons_self d ds)),
        ih (fun d' hd' => h d' (List.mem_cons_of_mem _ hd'))]
    rfl

/-- C9: when the followed relation refers to a task absent from the
freshly fetched data, the frame-0 refresh (which runs outside the
per-event exception handler) has `update_rows` raise a lookup error while
resolving the followed task's index; the exception escapes the inner
frame loop and `run` terminates returning failure (`False`). -/
theorem follow_vanished_terminates_run (s : IState) (t : Download)
    (fetched : List Download) (rest : List (List Event × List Download))
    (hframe : s.frame = 0) (hfollow : s.follow = some t)
    (habsent : fetched.all (fun d => !(decide (d.gid = t.gid))) = true)
    (hsort : 0 ≤ s.sort ∧ s.sort < (columnsOrder.length : Int)) :
    (∃ s2, update_data { s with refresh := false } fetched = .ok s2 ∧
        s2.follow = some t ∧ update_rows s2 = .error .pyErr) ∧
      runLoop s (([], fetched) :: rest) = some false := by
  have hget := pyGet_ok columnsOrder s.sort hsort.1 hsort.2
  set cname := columnsOrder.get ⟨s.sort.toNat, by omega⟩ with hcname
  set rel : Download → Download → Prop := fun a b =>
    skLe (column_get_sort cname a) (column_get_sort cname b) = true with hrel
  set s2 : IState :=
    { s with refresh := false, data := pySortBy rel s.reverse fetched }
    with hs2
  have habs : ∀ d ∈ fetched, ¬d.gid = t.gid := by
    intro d hd
    have := List.all_eq_true.mp habsent d hd
    simpa using this
  have h_ud : update_data { s with refresh := false } fetched = .ok s2 := by
    unfold update_data sort_data
    simp only [hget, Except.instMonad, Except.bind]
  have h_ur : update_rows s2 = .error .pyErr := by
    have hnone : pyIndexOf t (pySortBy rel s.reverse fetched) = none :=
      pyIndexOf_eq_none t _
        (fun d hd => habs d ((mem_pySortBy rel s.reverse fetched d).mp hd))
    unfold update_rows
    simp only [hs2, hfollow, hnone]
  refine ⟨⟨s2, h_ud, hfollow, h_ur⟩, ?_⟩
  rw [runLoop]
  have hstep : runFrame s [] fetched = .fatal := by
    unfold runFrame drain
    dsimp only
    rw [if_pos hframe, h_ud]
    simp only [Except.instMonad, Except.bind, Except.map, h_ur]
  rw [hstep]

/-- Witness for C9: the sample state at frame 0 following a task whose
gid is absent from the fetched data. -/
theorem follow_vanished_terminates_run_witness :
    (∃ s2, update_data
          { { sampleState with frame := 0, follow := some sampleDownload }
              with refresh := false } [] = .ok s2 ∧
        s2.follow = some sampleDownload ∧ update_rows s2 = .error .pyErr) ∧
      runLoop { sampleState with frame := 0, follow := some sampleDownload }
        (([], []) :: []) = some false :=
  follow_vanished_terminates_run
    { sampleState with frame := 0, follow := some sampleDownload }
    sampleDownload [] [] rfl rfl (by decide) (by decide)

/-!
### C4: double reverse-sort round trip

The key facts: `List.insertionSort` is a stable ascending sort, a stable
sort's output is uniquely determined by being sorted and preserving the
per-equivalence-class order of the input, and CPython implements
`reverse=True` by reversing before and after the ascending sort.  The
relation `r` below is the "key of `a` is at most key of `b`" comparison
of an arbitrary sort column: total and transitive, but not antisymmetric
when several tasks share equal sort keys. -/

/-- The elements equivalent to `v` under the total preorder `r`
(equal sort keys). -/
def rEquiv {α : Type} (r : α → α → Prop) [DecidableRel r] (v a : α) : Bool :=
  decide (r a v ∧ r v a)

theorem filter_orderedInsert {α : Type} (r : α → α → Prop) [DecidableRel r]
    (htot : ∀ a b, r a b ∨ r b a)
    (htrans : ∀ a b c, r a b → r b c → r a c)
    (v a : α) (m : List α) :
    (List.orderedInsert r a m).filter (rEquiv r v) =
      if rEquiv r v a = true then a :: m.filter (rEquiv r v)
      else m.filter (rEquiv r v) := by
  induction m with
  | nil =>
    by_cases hpa : rEquiv r v a = true <;>
      simp [List.orderedInsert, List.filter_cons, hpa]
  | cons b m ih =>
    by_cases hab : r a b
    · simp only [List.orderedInsert, if_pos hab]
      by_cases hpa : rEquiv r v a = true <;>
        simp [List.filter_cons, hpa]
    · have hba : r b a := (htot a b).resolve_left hab
      simp only [List.orderedInsert, if_neg hab]
      by_cases hpa : rEquiv r v a = true
      · have hpb : ¬rEquiv r v b = true := by
          intro hpb
          rw [rEquiv, decide_eq_true_eq] at hpa hpb
          exact hab (htrans a v b hpa.1 hpb.2)
        simp [List.filter_cons, hpa, hpb, ih]
      · simp [List.filter_cons, hpa, ih]

theorem filter_insertionSort {α : Type} (r : α → α → Prop) [DecidableRel r]
    (htot : ∀ a b, r a b ∨ r b a)
    (htrans : ∀ a b c, r a b → r b c → r a c)
    (v : α) (l : List α) :
    (List.insertionSort r l).filter (rEquiv r v) = l.filter (rEquiv r v) := by
  induction l with
  | nil => rfl
  | cons a l ih =>
    rw [List.insertionSort, filter_orderedInsert r htot htrans, ih,
        List.filter_cons]

theorem eq_of_sorted_of_filter_eq {α : Type} (r : α → α → Prop)
    [DecidableRel r]
    (htot : ∀ a b, r a b ∨ r b a)
    (htrans : ∀ a b c, r a b → r b c → r a c) :
    ∀ l₁ l₂ : List α, l₁.Pairwise r → l₂.Pairwise r →
      (∀ v, l₁.filter (rEquiv r v) = l₂.filter (rEquiv r v)) → l₁ = l₂ := by
  intro l₁
  induction l₁ with
  | nil =>
    intro l₂ _ _ hf
    cases l₂ with
    | nil => rfl
    | cons b t₂ =>
      exfalso
      have hbb : r b b := (htot b b).elim id id
      have h := hf b
      simp [List.filter_cons, rEquiv, hbb] at h
  | cons a t₁ ih =>
    intro l₂ hs₁ hs₂ hf
    cases l₂ with
    | nil =>
      exfalso
      have haa : r a a := (htot a a).elim id id
      have h := hf a
      simp [List.filter_cons, rEquiv, haa] at h
    | cons b t₂ =>
      obtain ⟨hhead₁, htail₁⟩ := List.pairwise_cons.mp hs₁
      obtain ⟨hhead₂, htail₂⟩ := List.pairwise_cons.mp hs₂
      have haa : r a a := (htot a a).elim id id
      have hbb : r b b := (htot b b).elim id id
      have hba : r b a := by
        by_contra hnba
        have h := hf a
        have hrhs : (b :: t₂).filter (rEquiv r a) = [] := by
          rw [List.filter_eq_nil_iff]
          intro x hx
          rw [rEquiv, decide_eq_true_eq]
          rintro ⟨hxa, hax⟩
          rcases List.mem_cons.mp hx with rfl | hx'
          · exact hnba hxa
          · exact hnba (htrans b x a (hhead₂ x hx') hxa)
        rw [hrhs] at h
        simp [List.filter_cons, rEquiv, haa] at h
      have hab : r a b := by
        by_contra hnab
        have h := hf b
        have hlhs : (a :: t₁).filter (rEquiv r b) = [] := by
          rw [List.filter_eq_nil_iff]
          intro x hx
          rw [rEquiv, decide_eq_true_eq]
          rintro ⟨hxb, hbx⟩
          rcases List.mem_cons.mp hx with rfl | hx'
          · exact hnab hxb
          · exact hnab (htrans a x b (hhead₁ x hx') hxb)
        rw [hlhs] at h
        simp [List.filter_cons, rEquiv, hbb] at h
      have hpaa : rEquiv r a a = true := by
        rw [rEquiv, decide_eq_true_eq]; exact ⟨haa, haa⟩
      have hpab : rEquiv r a b = true := by
        rw [rEquiv, decide_eq_true_eq]; exact ⟨hba, hab⟩
      have h := hf a
      rw [List.filter_cons, List.filter_cons, if_pos hpaa, if_pos hpab] at h
      injection h with hhead htail0
      subst hhead
      have htails : ∀ v, t₁.filter (rEquiv r v) = t₂.filter (rEquiv r v) := by
        intro v
        have hv := hf v
        rw [List.filter_cons, List.filter_cons] at hv
        by_cases hpv : rEquiv r v a = true
        · rw [if_pos hpv, if_pos hpv] at hv
          injection hv with hv1 hv2
        · rwa [if_neg hpv, if_neg hpv] at hv
      rw [ih t₂ htail₁ htail₂ htails]

theorem pySortBy_filter {α : Type} (r : α → α → Prop) [DecidableRel r]
    (htot : ∀ a b, r a b ∨ r b a)
    (htrans : ∀ a b c, r a b → r b c → r a c)
    (rev : Bool) (v : α) (l : List α) :
    (pySortBy r rev l).filter (rEquiv r v) = l.filter (rEquiv r v) := by
  cases rev with
  | false =>
    simp only [pySortBy, if_neg Bool.false_ne_true]
    exact filter_insertionSort r htot htrans v l
  | true =>
    simp only [pySortBy, if_true]
    rw [List.filter_reverse, filter_insertionSort r htot htrans,
        List.filter_reverse, List.reverse_reverse]

theorem pySortBy_pairwise_false {α : Type} (r : α → α → Prop)
    [DecidableRel r]
    (htot : ∀ a b, r a b ∨ r b a)
    (htrans : ∀ a b c, r a b → r b c → r a c) (l : List α) :
    (pySortBy r false l).Pairwise r := by
  letI : IsTotal α r := ⟨htot⟩
  letI : IsTrans α r := ⟨htrans⟩
  simp only [pySortBy, if_neg Bool.false_ne_true]
  exact List.sorted_insertionSort r l

theorem pySortBy_pairwise_true {α : Type} (r : α → α → Prop)
    [DecidableRel r]
    (htot : ∀ a b, r a b ∨ r b a)
    (htrans : ∀ a b c, r a b → r b c → r a c) (l : List α) :
    (pySortBy r true l).Pairwise (fun a b => r b a) := by
  letI : IsTotal α r := ⟨htot⟩
  letI : IsTrans α r := ⟨htrans⟩
  simp only [pySortBy, if_true]
  exact List.pairwise_reverse.mpr (List.sorted_insertionSort r l.reverse)

/-- The double-toggle round trip for an arbitrary total transitive key
comparison. -/
theorem reverse_sort_round_trip {α : Type} (r : α → α → Prop)
    [DecidableRel r]
    (htot : ∀ a b, r a b ∨ r b a)
    (htrans : ∀ a b c, r a b → r b c → r a c)
    (rev : Bool) (d : List α) :
    pySortBy r rev (pySortBy r (!rev) (pySortBy r rev d)) =
      pySortBy r rev d := by
  cases rev with
  | false =>
    exact eq_of_sorted_of_filter_eq r htot htrans _ _
      (pySortBy_pairwise_false r htot htrans _)
      (pySortBy_pairwise_false r htot htrans d)
      (fun v => by simp only [pySortBy_filter r htot htrans])
  | true =>
    letI : DecidableRel (fun a b : α => r b a) :=
      fun a b => inferInstanceAs (Decidable (r b a))
    have hEq : ∀ v : α, rEquiv (fun a b : α => r b a) v = rEquiv r v := by
      intro v
      funext a
      rw [rEquiv, rEquiv]
      exact decide_eq_decide.mpr and_comm
    exact eq_of_sorted_of_filter_eq (fun a b : α => r b a)
      (fun a b => htot b a)
      (fun a b c hab hbc => htrans c b a hbc hab)
      _ _
      (pySortBy_pairwise_true r htot htrans _)
      (pySortBy_pairwise_true r htot htrans d)
      (fun v => by
        rw [hEq v]
        simp only [pySortBy_filter r htot htrans])

theorem charListLe_total : ∀ a b : List Char,
    charListLe a b = true ∨ charListLe b a = true := by
  intro a
  induction a with
  | nil => intro b; left; rfl
  | cons c cs ih =>
    intro b
    cases b with
    | nil => right; rfl
    | cons d ds =>
      by_cases hcd : c = d
      · subst hcd
        simpa [charListLe] using ih ds
      · rcases lt_or_gt_of_ne hcd with h | h
        · left; simp [charListLe, hcd, h]
        · right; simp [charListLe, Ne.symm hcd, h]

theorem charListLe_trans : ∀ a b c : List Char,
    charListLe a b = true → charListLe b c = true →
      charListLe a c = true := by
  intro a
  induction a with
  | nil => intro b c _ _; rfl
  | cons x xs ih =>
    intro b c hab hbc
    cases b with
    | nil => simp [charListLe] at hab
    | cons y ys =>
      cases c with
      | nil => simp [charListLe] at hbc
      | cons z zs =>
        by_cases hxy : x = y
        · subst hxy
          by_cases hxz : x = z
          · subst hxz
            simp only [charListLe, if_pos rfl] at hab hbc ⊢
            exact ih ys zs hab hbc
          · simpa [charListLe, hxz] using (by simpa [charListLe, hxz] using hbc : decide (x < z) = true)
        · by_cases hyz : y = z
          · subst hyz
            simpa [charListLe, hxy] using (by simpa [charListLe, hxy] using hab : decide (x < y) = true)
          · simp only [charListLe, if_neg hxy] at hab
            simp only [charListLe, if_neg hyz] at hbc
            rw [decide_eq_true_eq] at hab hbc
            by_cases hxz : x = z
            · subst hxz
              exact absurd (lt_trans hab hbc) (lt_irrefl x)
            · simp only [charListLe, if_neg hxz, decide_eq_true_eq]
              exact lt_trans hab hbc

theorem skLe_total : ∀ a b : SortKey, skLe a b = true ∨ skLe b a = true := by
  intro a b
  cases a with
  | str sa =>
    cases b with
    | str sb => exact charListLe_total sa.data sb.data
    | int nb => left; rfl
  | int na =>
    cases b with
    | str sb => right; rfl
    | int nb =>
      rcases Int.le_total na nb with h | h
      · left; simpa [skLe] using h
      · right; simpa [skLe] using h

theorem skLe_trans : ∀ a b c : SortKey,
    skLe a b = true → skLe b c = true → skLe a c = true := by
  intro a b c hab hbc
  cases a with
  | str sa =>
    cases c with
    | str sc =>
      cases b with
      | str sb => exact charListLe_trans sa.data sb.data sc.data hab hbc
      | int nb => simp [skLe] at hbc
    | int nc => rfl
  | int na =>
    cases b with
    | str sb => simp [skLe] at hab
    | int nb =>
      cases c with
      | str sc => simp [skLe] at hbc
      | int nc =>
        rw [skLe, decide_eq_true_eq] at hab hbc ⊢
        omega

/-- C4: for every task list, sort column and sort direction, applying the
ReverseSort toggle twice, re-sorting with `sort_data`'s key comparison
after each toggle, yields exactly the original sorted row order — also
when several tasks share equal sort keys. -/
theorem reverse_sort_round_trip_sort_data (cname : String) (rev : Bool)
    (d : List Download) :
    pySortBy
        (fun a b => skLe (column_get_sort cname a) (column_get_sort cname b) = true)
        rev
        (pySortBy
          (fun a b => skLe (column_get_sort cname a) (column_get_sort cname b) = true)
          (!rev)
          (pySortBy
            (fun a b => skLe (column_get_sort cname a) (column_get_sort cname b) = true)
            rev d)) =
      pySortBy
        (fun a b => skLe (column_get_sort cname a) (column_get_sort cname b) = true)
        rev d :=
  reverse_sort_round_trip _
    (fun a b => skLe_total (column_get_sort cname a) (column_get_sort cname b))
    (fun a b c hab hbc =>
      skLe_trans (column_get_sort cname a) (column_get_sort cname b)
        (column_get_sort cname c) hab hbc)
    rev d
